import Mathlib

/-!  Verification development for the ObjRecRANSAC recognition pipeline of
     recognition/include/pcl/recognition/ransac_based/obj_rec_ransac.h.

     Machine floating point numbers are modelled as real numbers, and
     in-place array updates of the C++ code become pure functions that
     return the updated value.  The fixed-size arrays float[3], float[9]
     and float[12] become the structures Vec3, Mat3 and RigidTransform. -/

noncomputable section

namespace ObjRecRANSAC

/-- A 3-vector of reals, modelling a float[3]. -/
@[ext]
structure Vec3 where
  x : ℝ
  y : ℝ
  z : ℝ

/-- A 3x3 matrix of reals given by its rows, modelling a row-major float[9]. -/
@[ext]
structure Mat3 where
  r0 : Vec3
  r1 : Vec3
  r2 : Vec3

/-- A rigid transform: 9 rotation entries (row major) plus 3 translation
entries, modelling the float[12] layout used throughout the header. -/
@[ext]
structure RigidTransform where
  rot : Mat3
  trans : Vec3

namespace aux

/-- Modelled from the spec: the helper aux::dot3 lives in
ransac_based/auxiliary.h, which is not part of the given sources.  It is the
euclidean dot product of two 3-vectors. -/
def dot3 (a b : Vec3) : ℝ :=
  a.x * b.x + a.y * b.y + a.z * b.z

/-- Modelled from the spec: aux::add3 (auxiliary.h, missing from the
sources) adds the second vector onto the first componentwise; here the sum is
returned instead of updating in place. -/
def add3 (a b : Vec3) : Vec3 :=
  ⟨a.x + b.x, a.y + b.y, a.z + b.z⟩

/-- Modelled from the spec: aux::sum3 (auxiliary.h, missing from the
sources) writes the componentwise sum of two vectors into its output
argument. -/
def sum3 (a b : Vec3) : Vec3 :=
  ⟨a.x + b.x, a.y + b.y, a.z + b.z⟩

/-- Modelled from the spec: aux::diff3 (auxiliary.h, missing from the
sources) writes the componentwise difference a - b into its output
argument. -/
def diff3 (a b : Vec3) : Vec3 :=
  ⟨a.x - b.x, a.y - b.y, a.z - b.z⟩

/-- Modelled from the spec: aux::mult3 (auxiliary.h, missing from the
sources) scales a vector by a scalar in place; here the scaled vector is
returned. -/
def mult3 (a : Vec3) (s : ℝ) : Vec3 :=
  ⟨a.x * s, a.y * s, a.z * s⟩

/-- Modelled from the spec: aux::cross3 (auxiliary.h, missing from the
sources) is the euclidean cross product of two 3-vectors. -/
def cross3 (a b : Vec3) : Vec3 :=
  ⟨a.y * b.z - a.z * b.y, a.z * b.x - a.x * b.z, a.x * b.y - a.y * b.x⟩

/-- Modelled from the spec: aux::normalize3 (auxiliary.h, missing from the
sources) divides a vector by its euclidean length, guarded by the caller
against zero-length input; division by a zero length is total here because
real division by zero yields zero. -/
def normalize3 (v : Vec3) : Vec3 :=
  mult3 v (1 / Real.sqrt (dot3 v v))

/-- Modelled from the spec: aux::projectOnPlane3 (auxiliary.h, missing from
the sources) projects the vector v onto the plane through the origin with
unit normal n, i.e. it removes from v its component along n. -/
def projectOnPlane3 (v n : Vec3) : Vec3 :=
  ⟨v.x - dot3 v n * n.x, v.y - dot3 v n * n.y, v.z - dot3 v n * n.z⟩

/-- Modelled from the spec: aux::clamp (auxiliary.h, missing from the
sources) clamps a value into the interval [a, b]: below a it returns a,
above b it returns b, otherwise the value itself. -/
def clamp (value a b : ℝ) : ℝ :=
  if value < a then a else if value > b then b else value

/-- Modelled from the spec: aux::mult3x3 on three vectors and a matrix
(auxiliary.h, missing from the sources) computes the product
[a|b|c] * m of the matrix with columns a, b, c and the matrix m, per the
spec sentence R = [x2|y2|z2] * inverse of [x1|y1|z1]. -/
def mult3x3 (a b c : Vec3) (m : Mat3) : Mat3 :=
  ⟨⟨a.x * m.r0.x + b.x * m.r1.x + c.x * m.r2.x,
    a.x * m.r0.y + b.x * m.r1.y + c.x * m.r2.y,
    a.x * m.r0.z + b.x * m.r1.z + c.x * m.r2.z⟩,
   ⟨a.y * m.r0.x + b.y * m.r1.x + c.y * m.r2.x,
    a.y * m.r0.y + b.y * m.r1.y + c.y * m.r2.y,
    a.y * m.r0.z + b.y * m.r1.z + c.y * m.r2.z⟩,
   ⟨a.z * m.r0.x + b.z * m.r1.x + c.z * m.r2.x,
    a.z * m.r0.y + b.z * m.r1.y + c.z * m.r2.y,
    a.z * m.r0.z + b.z * m.r1.z + c.z * m.r2.z⟩⟩

/-- Modelled from the spec: the matrix-times-vector overload of aux::mult3x3
(auxiliary.h, missing from the sources), as used for R times o1 in
computeRigidTransform. -/
def mult3x3v (m : Mat3) (v : Vec3) : Vec3 :=
  ⟨dot3 m.r0 v, dot3 m.r1 v, dot3 m.r2 v⟩

end aux

/-- The zero vector, value of aux::set3 with scalar 0. -/
def zero3 : Vec3 := ⟨0, 0, 0⟩

/-- The C conversion static_cast int of a real value: truncation toward
zero. -/
def cIntOfReal (x : ℝ) : ℤ :=
  if 0 ≤ x then ⌊x⌋ else -⌊-x⌋

/-- ObjRecRANSAC::computeNumberOfIterations from the header: with
p = 0.25 * relative_obj_size, it returns 1 when 1 - p ≤ 0 and otherwise the
int conversion of log(1 - success_probability) / log(1 - p) + 1.  The
member field relative_obj_size_ is passed as an argument. -/
def computeNumberOfIterations (success_probability relative_obj_size : ℝ) : ℤ :=
  let p_obj : ℝ := 0.25
  let p : ℝ := p_obj * relative_obj_size
  if 1 - p ≤ 0 then 1
  else cIntOfReal (Real.log (1 - success_probability) / Real.log (1 - p) + 1)

/-- The iteration count as the specification words it: p = 0.25 * r and
iterations = ceil(ln(1 - P) / ln(1 - p)), with the degenerate case p ≥ 1
returning 1 iteration.  This definition follows the words of the spec and is
compared against computeNumberOfIterations, which follows the code. -/
def iterationsSpec (success_probability relative_obj_size : ℝ) : ℤ :=
  let p : ℝ := 0.25 * relative_obj_size
  if 1 ≤ p then 1
  else ⌈Real.log (1 - success_probability) / Real.log (1 - p)⌉

/-- ObjRecRANSAC::compute_oriented_point_pair_signature from the header:
the three angles between n1 and the normalized chord from p1 to p2, between
n2 and the reversed chord, and between n1 and n2, each via the arccosine of
the dot product clamped into [-1, 1]. -/
def compute_oriented_point_pair_signature (p1 n1 p2 n2 : Vec3) : ℝ × ℝ × ℝ :=
  let cl : Vec3 := aux.normalize3 ⟨p2.x - p1.x, p2.y - p1.y, p2.z - p1.z⟩
  let ncl : Vec3 := ⟨-cl.x, -cl.y, -cl.z⟩
  (Real.arccos (aux.clamp (aux.dot3 n1 cl) (-1) 1),
   Real.arccos (aux.clamp (aux.dot3 n2 ncl) (-1) 1),
   Real.arccos (aux.clamp (aux.dot3 n1 n2) (-1) 1))

/-- The origin of the frame a pair spans in computeRigidTransform: the
midpoint of the two points. -/
def pairOrigin (a b : Vec3) : Vec3 :=
  ⟨0.5 * (a.x + b.x), 0.5 * (a.y + b.y), 0.5 * (a.z + b.z)⟩

/-- The x-axis of the frame a pair spans in computeRigidTransform: the
normalized chord from the first to the second point. -/
def pairFrameX (a b : Vec3) : Vec3 :=
  aux.normalize3 (aux.diff3 b a)

/-- The y-axis of the frame a pair spans in computeRigidTransform: the code
normalizes the projection of each of the two normals onto the plane
orthogonal to the x-axis and then normalizes the sum of the two unit
projections. -/
def pairFrameY (a a_n b b_n : Vec3) : Vec3 :=
  aux.normalize3
    (aux.sum3 (aux.normalize3 (aux.projectOnPlane3 a_n (pairFrameX a b)))
              (aux.normalize3 (aux.projectOnPlane3 b_n (pairFrameX a b))))

/-- The y-axis as the specification claim words it: the normalized sum of
the two normals projected onto the plane orthogonal to the x-axis, with no
normalization of the individual projections.  This definition follows the
words of the spec and is compared against pairFrameY, which follows the
code. -/
def pairFrameYSpec (a a_n b b_n : Vec3) : Vec3 :=
  aux.normalize3
    (aux.sum3 (aux.projectOnPlane3 a_n (pairFrameX a b))
              (aux.projectOnPlane3 b_n (pairFrameX a b)))

/-- The z-axis of the frame a pair spans in computeRigidTransform: the cross
product of the x- and y-axes. -/
def pairFrameZ (a a_n b b_n : Vec3) : Vec3 :=
  aux.cross3 (pairFrameX a b) (pairFrameY a a_n b b_n)

/-- ObjRecRANSAC::computeRigidTransform from the header: builds the frame
(origin, x-, y-, z-axis) of each oriented point pair, inverts the first
frame by transposition, multiplies the second frame by it to obtain the
rotation, and sets the translation to o2 minus the rotated o1. -/
def computeRigidTransform (a1 a1_n b1 b1_n a2 a2_n b2 b2_n : Vec3) : RigidTransform :=
  let o1 : Vec3 := ⟨0.5 * (a1.x + b1.x), 0.5 * (a1.y + b1.y), 0.5 * (a1.z + b1.z)⟩
  let o2 : Vec3 := ⟨0.5 * (a2.x + b2.x), 0.5 * (a2.y + b2.y), 0.5 * (a2.z + b2.z)⟩
  let x1 : Vec3 := aux.normalize3 (aux.diff3 b1 a1)
  let x2 : Vec3 := aux.normalize3 (aux.diff3 b2 a2)
  let tmp11 : Vec3 := aux.normalize3 (aux.projectOnPlane3 a1_n x1)
  let tmp12 : Vec3 := aux.normalize3 (aux.projectOnPlane3 b1_n x1)
  let y1 : Vec3 := aux.normalize3 (aux.sum3 tmp11 tmp12)
  let tmp21 : Vec3 := aux.normalize3 (aux.projectOnPlane3 a2_n x2)
  let tmp22 : Vec3 := aux.normalize3 (aux.projectOnPlane3 b2_n x2)
  let y2 : Vec3 := aux.normalize3 (aux.sum3 tmp21 tmp22)
  let z1 : Vec3 := aux.cross3 x1 y1
  let z2 : Vec3 := aux.cross3 x2 y2
  let invFrame1 : Mat3 := ⟨x1, y1, z1⟩
  let r : Mat3 := aux.mult3x3 x2 y2 z2 invFrame1
  let ro1 : Vec3 := aux.mult3x3v r o1
  ⟨r, ⟨o2.x - ro1.x, o2.y - ro1.y, o2.z - ro1.z⟩⟩

/-- Orthonormality of a frame of three vectors: unit length and pairwise
orthogonal. -/
def orthonormalFrame (x y z : Vec3) : Prop :=
  aux.dot3 x x = 1 ∧ aux.dot3 y y = 1 ∧ aux.dot3 z z = 1 ∧
  aux.dot3 x y = 0 ∧ aux.dot3 x z = 0 ∧ aux.dot3 y z = 0

/-- Stand-in for a registered object model: hypotheses and pose-cell entries
refer to models by identity only (const ModelLibrary::Model pointers in the
header), so an abstract identifier suffices. -/
abbrev Model := ℕ

/-- RotationSpace::Cell::Entry from the header: a running sum of axis-angle
vectors, a running sum of translations, and the number of accumulated
transforms.  The default constructor zeroes all three. -/
structure Entry where
  axis_angle_ : Vec3
  translation_ : Vec3
  num_transforms_ : ℤ

/-- The default-constructed Entry: both sums zero (aux::set3 with 0) and a
transform count of zero. -/
def Entry.fresh : Entry := ⟨zero3, zero3, 0⟩

/-- Entry::addRigidTransform from the header: adds the axis-angle and the
translation onto the running sums and increments the count. -/
def Entry.addRigidTransform (e : Entry) (axis_angle translation : Vec3) : Entry :=
  ⟨aux.add3 e.axis_angle_ axis_angle, aux.add3 e.translation_ translation,
   e.num_transforms_ + 1⟩

/-- Entry::computeAverageRigidTransform from the header: a no-op when fewer
than two transforms are stored; otherwise both sums are scaled by the factor
one over the count and the count is reset to one. -/
def Entry.computeAverageRigidTransform (e : Entry) : Entry :=
  if e.num_transforms_ < 2 then e
  else
    let factor : ℝ := 1.0 / (e.num_transforms_ : ℝ)
    ⟨aux.mult3 e.axis_angle_ factor, aux.mult3 e.translation_ factor, 1⟩

/-- The result of folding a list of (axis-angle, translation) insertions
into a freshly constructed Entry via Entry::addRigidTransform. -/
def entryOfTransforms (l : List (Vec3 × Vec3)) : Entry :=
  l.foldl (fun e vt => e.addRigidTransform vt.1 vt.2) Entry.fresh

/-- The componentwise sum of a list of vectors. -/
def vsum (l : List Vec3) : Vec3 :=
  l.foldl aux.add3 zero3

/-- Modelled from the spec: aux::axisAngleToRotationMatrix (auxiliary.h,
missing from the sources) converts an axis-angle vector (axis = direction,
angle = euclidean norm) back to a rotation matrix, i.e. the Rodrigues
rotation about the unit axis by that angle. -/
def axisAngleToRotationMatrix (v : Vec3) : Mat3 :=
  let angle : ℝ := Real.sqrt (aux.dot3 v v)
  let u : Vec3 := aux.normalize3 v
  let c : ℝ := Real.cos angle
  let s : ℝ := Real.sin angle
  ⟨⟨c + u.x * u.x * (1 - c), u.x * u.y * (1 - c) - u.z * s, u.x * u.z * (1 - c) + u.y * s⟩,
   ⟨u.y * u.x * (1 - c) + u.z * s, c + u.y * u.y * (1 - c), u.y * u.z * (1 - c) - u.x * s⟩,
   ⟨u.z * u.x * (1 - c) - u.y * s, u.z * u.y * (1 - c) + u.x * s, c + u.z * u.z * (1 - c)⟩⟩

/-- ObjRecRANSAC::Hypothesis from the header: the referenced model, the
rigid transform (rotation and translation split out of the float[12]), the
match confidence and the explained scene pixels.  The constructor sets the
match confidence to -1 and leaves the transform to be written by the
caller. -/
structure Hypothesis where
  obj_model_ : Model
  rigid_transform_rot_ : Mat3
  rigid_transform_trans_ : Vec3
  match_confidence_ : ℝ
  explained_pixels_ : List ℤ

/-- The hypothesis built by Cell::computeAverageRigidTransformInEntries for
one (model, entry) pair: a fresh Hypothesis for the model (so with match
confidence -1 and no explained pixels) whose rotation entries receive the
matrix form of the entry axis-angle and whose translation entries receive
the entry translation. -/
def groupedHypothesis (m : Model) (e : Entry) : Hypothesis :=
  ⟨m, axisAngleToRotationMatrix e.axis_angle_, e.translation_, -1, []⟩

/-- RotationSpace::Cell from the header: the map from models to entries,
modelled as an association list with one entry per model. -/
abbrev Cell := List (Model × Entry)

/-- Cell::addRigidTransform from the header: the std::map index operator
finds the entry of the model, default-constructing it when absent, and
Entry::addRigidTransform is applied to it. -/
def Cell.addRigidTransform (c : Cell) (m : Model) (axis_angle translation : Vec3) : Cell :=
  match c with
  | [] => [(m, Entry.fresh.addRigidTransform axis_angle translation)]
  | (k, e) :: rest =>
    if k = m then (k, e.addRigidTransform axis_angle translation) :: rest
    else (k, e) :: Cell.addRigidTransform rest m axis_angle translation

/-- The entry a cell holds for a model; absent models map to the
default-constructed entry, matching the std::map semantics. -/
def Cell.entryOf (c : Cell) (m : Model) : Entry :=
  match c with
  | [] => Entry.fresh
  | (k, e) :: rest => if k = m then e else Cell.entryOf rest m

/-- Cell::computeAverageRigidTransformInEntries from the header: every entry
is averaged in place, one new hypothesis per (model, entry) pair is pushed
onto the output list, and the hypotheses counter grows by the number of
entries.  The updated cell, the extended output list and the new counter are
returned. -/
def Cell.computeAverageRigidTransformInEntries (c : Cell) (out : List Hypothesis)
    (hypotheses_counter : ℤ) : Cell × List Hypothesis × ℤ :=
  (c.map (fun p => (p.1, p.2.computeAverageRigidTransform)),
   out ++ c.map (fun p => groupedHypothesis p.1 p.2.computeAverageRigidTransform),
   hypotheses_counter + c.length)

/-- The float constant AUX_PI_FLOAT of the rotation-space bounds, modelled
as the real number pi. -/
def AUX_PI_FLOAT : ℝ := Real.pi

/-- The float constant AUX_DEG_TO_RADIANS, modelled exactly. -/
def AUX_DEG_TO_RADIANS : ℝ := Real.pi / 180

/-- The lower rotation-space bound -(AUX_PI_FLOAT + 0.000000001) of the
RotationSpace constructor. -/
def rotSpaceMin : ℝ := -(AUX_PI_FLOAT + 0.000000001)

/-- The upper rotation-space bound AUX_PI_FLOAT + 0.000000001 of the
RotationSpace constructor. -/
def rotSpaceMax : ℝ := AUX_PI_FLOAT + 0.000000001

/-- The leaf size 6.0 * AUX_DEG_TO_RADIANS the RotationSpace constructor
passes to the octree build. -/
def rotSpaceLeafSize : ℝ := 6.0 * AUX_DEG_TO_RADIANS

/-- Whether an axis-angle point lies inside the bounded rotation-space
grid [rotSpaceMin, rotSpaceMax]^3. -/
def inRotationBounds (v : Vec3) : Prop :=
  rotSpaceMin ≤ v.x ∧ v.x ≤ rotSpaceMax ∧
  rotSpaceMin ≤ v.y ∧ v.y ≤ rotSpaceMax ∧
  rotSpaceMin ≤ v.z ∧ v.z ≤ rotSpaceMax

instance (v : Vec3) : Decidable (inRotationBounds v) :=
  inferInstanceAs (Decidable (_ ∧ _ ∧ _ ∧ _ ∧ _ ∧ _))

/-- The integer voxel coordinates owning a point of the rotation space. -/
def rotLeafId (v : Vec3) : ℤ × ℤ × ℤ :=
  (⌊(v.x - rotSpaceMin) / rotSpaceLeafSize⌋,
   ⌊(v.y - rotSpaceMin) / rotSpaceLeafSize⌋,
   ⌊(v.z - rotSpaceMin) / rotSpaceLeafSize⌋)

/-- Modelled from the spec: ORROctree (orr_octree.h, not part of the given
sources) backs the rotation space; createLeaf returns the leaf voxel owning
the query point and fails exactly when the point falls outside the bounded
grid.  A leaf is identified by its integer voxel coordinates. -/
def createLeaf (v : Vec3) : Option (ℤ × ℤ × ℤ) :=
  if inRotationBounds v then some (rotLeafId v) else none

/-- ObjRecRANSAC::RotationSpace from the header: the cells of the
rotation-space octree, one per occupied leaf, modelled as an association
list from leaf coordinates to cells (the octree stores a cell pointer as
leaf user data and full_cells_ lists the occupied ones). -/
structure RotationSpace where
  full_cells_ : List ((ℤ × ℤ × ℤ) × Cell)

/-- Lookup of the cell stored at a leaf in an association list of cells;
leaves without a cell map to the empty cell, matching the lazily created
cells of the header. -/
def lookupCell (cs : List ((ℤ × ℤ × ℤ) × Cell)) (leaf : ℤ × ℤ × ℤ) : Cell :=
  match cs with
  | [] => []
  | (k, c) :: rest => if k = leaf then c else lookupCell rest leaf

/-- The cell a rotation space holds at a leaf. -/
def RotationSpace.cellAt (rs : RotationSpace) (leaf : ℤ × ℤ × ℤ) : Cell :=
  lookupCell rs.full_cells_ leaf

/-- Update of the association list of cells at one leaf. -/
def updateCells (cs : List ((ℤ × ℤ × ℤ) × Cell)) (leaf : ℤ × ℤ × ℤ)
    (m : Model) (axis_angle translation : Vec3) : List ((ℤ × ℤ × ℤ) × Cell) :=
  match cs with
  | [] => [(leaf, Cell.addRigidTransform [] m axis_angle translation)]
  | (k, c) :: rest =>
    if k = leaf then (k, c.addRigidTransform m axis_angle translation) :: rest
    else (k, c) :: updateCells rest leaf m axis_angle translation

/-- RotationSpace::addRigidTransform from the header: createLeaf on the
axis-angle point; on failure a warning is printed (a side effect outside
this embedding) and false is returned with the space untouched; on success
the transform is added to the cell of the owning leaf (the cell being
created first when the leaf had none) and true is returned. -/
def RotationSpace.addRigidTransform (rs : RotationSpace) (m : Model)
    (axis_angle translation : Vec3) : Bool × RotationSpace :=
  match createLeaf axis_angle with
  | none => (false, rs)
  | some leaf => (true, ⟨updateCells rs.full_cells_ leaf m axis_angle translation⟩)

/-- The entry a rotation space holds for a model at a leaf. -/
def RotationSpace.entryAt (rs : RotationSpace) (leaf : ℤ × ℤ × ℤ) (m : Model) : Entry :=
  (rs.cellAt leaf).entryOf m

/-- ObjRecRANSAC::OrientedPointPair from the header: the two points and two
normals of a sampled pair (borrowed float pointers in the source, values
here). -/
structure OrientedPointPair where
  p1_ : Vec3
  n1_ : Vec3
  p2_ : Vec3
  n2_ : Vec3

/-- The mutable state of an ObjRecRANSAC instance, restricted to the members
the clear methods and the accepted-hypotheses getters touch.  The contents
of the model library, the two octrees and the z-projection are external
collaborators (model_library.h, orr_octree.h and orr_octree_zprojection.h
are not part of the given sources); only their emptiness matters here, so
each is modelled by a list of abstract elements that its clear method
empties. -/
structure State where
  model_library_ : List ℕ
  scene_octree_ : List ℕ
  transform_octree_ : List ℕ
  scene_octree_proj_ : List ℕ
  sampled_oriented_point_pairs_ : List OrientedPointPair
  accepted_hypotheses_ : List Hypothesis

/-- ObjRecRANSAC::clear from the header: removes all models from the model
library and clears the scene octree, the scene octree z-projection, the
sampled oriented point pairs and the transform octree.  No other member is
touched. -/
def clear (s : State) : State :=
  { s with
    model_library_ := [],
    scene_octree_ := [],
    scene_octree_proj_ := [],
    sampled_oriented_point_pairs_ := [],
    transform_octree_ := [] }

/-- ObjRecRANSAC::clearTestData from the header: clears the sampled oriented
point pairs, deletes every accepted hypothesis and clears the accepted
hypotheses vector. -/
def clearTestData (s : State) : State :=
  { s with
    sampled_oriented_point_pairs_ := [],
    accepted_hypotheses_ := [] }

/-- ObjRecRANSAC::getAcceptedHypotheses from the header: returns the
accepted hypotheses vector. -/
def getAcceptedHypotheses (s : State) : List Hypothesis :=
  s.accepted_hypotheses_

lemma dot3_comm (a b : Vec3) : aux.dot3 a b = aux.dot3 b a := by
  simp only [aux.dot3]; ring

lemma mult3x3v_mult3x3 (x1 y1 z1 x2 y2 z2 v : Vec3) :
    aux.mult3x3v (aux.mult3x3 x2 y2 z2 ⟨x1, y1, z1⟩) v =
      aux.add3 (aux.add3 (aux.mult3 x2 (aux.dot3 x1 v)) (aux.mult3 y2 (aux.dot3 y1 v)))
        (aux.mult3 z2 (aux.dot3 z1 v)) := by
  simp only [aux.mult3x3v, aux.mult3x3, aux.dot3, aux.add3, aux.mult3, Vec3.mk.injEq]
  refine ⟨by ring, by ring, by ring⟩

lemma normalize3_unit (v : Vec3) (h : aux.dot3 v v = 1) : aux.normalize3 v = v := by
  simp only [aux.normalize3, h, Real.sqrt_one, aux.mult3]
  refine Vec3.ext ?_ ?_ ?_ <;> simp

lemma normalize3_dot_sq (v : Vec3) (r : ℝ) (h0 : 0 ≤ r) (h : aux.dot3 v v = r ^ 2) :
    aux.normalize3 v = aux.mult3 v (1 / r) := by
  simp only [aux.normalize3, h, Real.sqrt_sq h0]

lemma normalize3_neg (a b c : ℝ) :
    aux.normalize3 ⟨-a, -b, -c⟩ =
      ⟨-(aux.normalize3 ⟨a, b, c⟩).x, -(aux.normalize3 ⟨a, b, c⟩).y,
       -(aux.normalize3 ⟨a, b, c⟩).z⟩ := by
  have h : aux.dot3 ⟨-a, -b, -c⟩ ⟨-a, -b, -c⟩ = aux.dot3 ⟨a, b, c⟩ ⟨a, b, c⟩ := by
    simp only [aux.dot3]; ring
  simp only [aux.normalize3, aux.mult3, h, Vec3.mk.injEq]
  refine ⟨by ring, by ring, by ring⟩

lemma clamp_mem (v a b : ℝ) (hab : a ≤ b) : a ≤ aux.clamp v a b ∧ aux.clamp v a b ≤ b := by
  unfold aux.clamp
  split_ifs with h1 h2
  · exact ⟨le_refl a, hab⟩
  · exact ⟨hab, le_refl b⟩
  · exact ⟨le_of_not_lt h1, le_of_not_gt h2⟩

lemma add3_comm (a b : Vec3) : aux.add3 a b = aux.add3 b a := by
  simp only [aux.add3, Vec3.mk.injEq]
  refine ⟨by ring, by ring, by ring⟩

lemma add3_assoc (a b c : Vec3) :
    aux.add3 (aux.add3 a b) c = aux.add3 a (aux.add3 b c) := by
  simp only [aux.add3, Vec3.mk.injEq]
  refine ⟨by ring, by ring, by ring⟩

lemma add3_zero (a : Vec3) : aux.add3 zero3 a = a := by
  simp only [aux.add3, zero3]
  refine Vec3.ext ?_ ?_ ?_ <;> simp

lemma add3_zero_right (a : Vec3) : aux.add3 a zero3 = a := by
  rw [add3_comm, add3_zero]

lemma vsum_nil : vsum ([] : List Vec3) = zero3 := rfl

lemma foldl_add3_eq (l : List Vec3) (a : Vec3) :
    l.foldl aux.add3 a = aux.add3 a (vsum l) := by
  induction l generalizing a with
  | nil => rw [List.foldl_nil, vsum_nil, add3_zero_right]
  | cons v t ih =>
    simp only [vsum, List.foldl_cons]
    rw [ih, ih (aux.add3 zero3 v), add3_zero, add3_assoc]

lemma vsum_cons (v : Vec3) (l : List Vec3) : vsum (v :: l) = aux.add3 v (vsum l) := by
  simp only [vsum, List.foldl_cons]
  rw [foldl_add3_eq, add3_zero]
  rfl

lemma foldl_addRigidTransform (l : List (Vec3 × Vec3)) (e : Entry) :
    l.foldl (fun e vt => e.addRigidTransform vt.1 vt.2) e =
      ⟨aux.add3 e.axis_angle_ (vsum (l.map Prod.fst)),
       aux.add3 e.translation_ (vsum (l.map Prod.snd)),
       e.num_transforms_ + l.length⟩ := by
  induction l generalizing e with
  | nil =>
    simp only [List.foldl_nil, List.map_nil, List.length_nil, Nat.cast_zero, add_zero,
      vsum_nil, add3_zero_right]
  | cons vt t ih =>
    simp only [List.foldl_cons, List.map_cons, List.length_cons]
    rw [ih]
    simp only [Entry.addRigidTransform, Entry.mk.injEq]
    refine ⟨?_, ?_, by push_cast; ring⟩
    · rw [vsum_cons, ← add3_assoc]
    · rw [vsum_cons, ← add3_assoc]

lemma entryOfTransforms_eq (l : List (Vec3 × Vec3)) :
    entryOfTransforms l =
      ⟨vsum (l.map Prod.fst), vsum (l.map Prod.snd), l.length⟩ := by
  unfold entryOfTransforms
  rw [foldl_addRigidTransform]
  simp only [Entry.fresh, Entry.mk.injEq]
  exact ⟨add3_zero _, add3_zero _, by simp⟩

lemma avg_avg (e : Entry) :
    e.computeAverageRigidTransform.computeAverageRigidTransform =
      e.computeAverageRigidTransform := by
  unfold Entry.computeAverageRigidTransform
  by_cases h : e.num_transforms_ < 2
  · simp [h]
  · simp only [h, if_false]
    norm_num

lemma mult3_one (v : Vec3) : aux.mult3 v 1 = v := by
  simp only [aux.mult3]
  refine Vec3.ext ?_ ?_ ?_ <;> simp

lemma entryOfTransforms_avg (l : List (Vec3 × Vec3)) (hl : l ≠ []) :
    (entryOfTransforms l).computeAverageRigidTransform =
      ⟨aux.mult3 (vsum (l.map Prod.fst)) (1 / (l.length : ℝ)),
       aux.mult3 (vsum (l.map Prod.snd)) (1 / (l.length : ℝ)), 1⟩ := by
  rw [entryOfTransforms_eq]
  unfold Entry.computeAverageRigidTransform
  by_cases h : (l.length : ℤ) < 2
  · have h1 : l.length = 1 := by
      have h0 : l.length ≠ 0 := fun hc => hl (List.length_eq_zero.mp hc)
      omega
    simp only [h1] at h ⊢
    norm_num [mult3_one]
  · simp only [h, if_false, Entry.mk.injEq]
    norm_num

lemma ceil_eq_floor_add_one_of_ne (x : ℝ) (h : x ≠ (⌊x⌋ : ℝ)) : ⌈x⌉ = ⌊x⌋ + 1 := by
  refine le_antisymm (Int.ceil_le_floor_add_one x) ?_
  have hlt : (⌊x⌋ : ℝ) < x := lt_of_le_of_ne (Int.floor_le x) (fun hc => h hc.symm)
  have hle : x ≤ (⌈x⌉ : ℝ) := Int.le_ceil x
  have : (⌊x⌋ : ℝ) < (⌈x⌉ : ℝ) := lt_of_lt_of_le hlt hle
  have : ⌊x⌋ < ⌈x⌉ := by exact_mod_cast this
  omega

lemma cIntOfReal_of_nonneg (x : ℝ) (h : 0 ≤ x) : cIntOfReal x = ⌊x⌋ := by
  simp [cIntOfReal, h]

lemma entryOf_add_same (c : Cell) (m : Model) (v t : Vec3) :
    (c.addRigidTransform m v t).entryOf m = (c.entryOf m).addRigidTransform v t := by
  induction c with
  | nil => simp [Cell.addRigidTransform, Cell.entryOf]
  | cons p rest ih =>
    obtain ⟨k, e⟩ := p
    by_cases hk : k = m
    · subst hk
      simp [Cell.addRigidTransform, Cell.entryOf]
    · simp [Cell.addRigidTransform, Cell.entryOf, hk, ih]

lemma entryOf_add_other (c : Cell) (m m' : Model) (v t : Vec3) (h : m' ≠ m) :
    (c.addRigidTransform m v t).entryOf m' = c.entryOf m' := by
  induction c with
  | nil => simp [Cell.addRigidTransform, Cell.entryOf, Ne.symm h]
  | cons p rest ih =>
    obtain ⟨k, e⟩ := p
    by_cases hk : k = m
    · subst hk
      simp [Cell.addRigidTransform, Cell.entryOf, Ne.symm h]
    · simp [Cell.addRigidTransform, Cell.entryOf, hk, ih]

lemma lookupCell_update_same (cs : List ((ℤ × ℤ × ℤ) × Cell)) (leaf : ℤ × ℤ × ℤ)
    (m : Model) (v t : Vec3) :
    lookupCell (updateCells cs leaf m v t) leaf =
      (lookupCell cs leaf).addRigidTransform m v t := by
  induction cs with
  | nil => simp [updateCells, lookupCell]
  | cons p rest ih =>
    obtain ⟨k, c⟩ := p
    by_cases hk : k = leaf
    · subst hk
      simp [updateCells, lookupCell]
    · simp [updateCells, lookupCell, hk, ih]

lemma lookupCell_update_other (cs : List ((ℤ × ℤ × ℤ) × Cell)) (leaf leaf' : ℤ × ℤ × ℤ)
    (m : Model) (v t : Vec3) (h : leaf' ≠ leaf) :
    lookupCell (updateCells cs leaf m v t) leaf' = lookupCell cs leaf' := by
  induction cs with
  | nil => simp [updateCells, lookupCell, Ne.symm h]
  | cons p rest ih =>
    obtain ⟨k, c⟩ := p
    by_cases hk : k = leaf
    · subst hk
      simp [updateCells, lookupCell, Ne.symm h]
    · simp [updateCells, lookupCell, hk, ih]

/-- C10: ObjRecRANSAC::clear empties the model library, the scene octree,
the scene z-projection, the sampled oriented point pairs and the transform
octree, but leaves accepted_hypotheses_ unchanged, so getAcceptedHypotheses
still returns the hypotheses of the previous recognize call; only
clearTestData (called from the destructor) empties them. -/
theorem C10_clear_keeps_accepted_hypotheses (s : State) :
    getAcceptedHypotheses (clear s) = getAcceptedHypotheses s ∧
    (clear s).accepted_hypotheses_ = s.accepted_hypotheses_ ∧
    (clear s).model_library_ = [] ∧
    (clear s).scene_octree_ = [] ∧
    (clear s).scene_octree_proj_ = [] ∧
    (clear s).sampled_oriented_point_pairs_ = [] ∧
    (clear s).transform_octree_ = [] ∧
    (clearTestData s).accepted_hypotheses_ = [] :=
  ⟨rfl, rfl, rfl, rfl, rfl, rfl, rfl, rfl⟩

/-- C3: after any sequence of Entry::addRigidTransform insertions on a fresh
Entry, one call to Entry::computeAverageRigidTransform followed by a second
call with no intervening insertions leaves the entry unchanged, and when the
accumulated count was at least 2 the first call resets it to 1. -/
theorem C3_average_idempotent (l : List (Vec3 × Vec3)) :
    (entryOfTransforms l).computeAverageRigidTransform.computeAverageRigidTransform =
      (entryOfTransforms l).computeAverageRigidTransform ∧
    (2 ≤ (entryOfTransforms l).num_transforms_ →
      (entryOfTransforms l).computeAverageRigidTransform.num_transforms_ = 1) := by
  refine ⟨avg_avg _, fun h => ?_⟩
  unfold Entry.computeAverageRigidTransform
  rw [if_neg (not_lt.mpr h)]

/-- Witness for C3 at a concrete two-insertion sequence. -/
theorem C3_average_idempotent_witness :
    (2 ≤ (entryOfTransforms
        [(⟨1, 0, 0⟩, ⟨0, 0, 1⟩), (⟨0, 1, 0⟩, ⟨0, 0, 2⟩)]).num_transforms_) ∧
    ((entryOfTransforms
        [(⟨1, 0, 0⟩, ⟨0, 0, 1⟩), (⟨0, 1, 0⟩, ⟨0, 0, 2⟩)]).computeAverageRigidTransform.computeAverageRigidTransform =
      (entryOfTransforms
        [(⟨1, 0, 0⟩, ⟨0, 0, 1⟩), (⟨0, 1, 0⟩, ⟨0, 0, 2⟩)]).computeAverageRigidTransform ∧
     (entryOfTransforms
        [(⟨1, 0, 0⟩, ⟨0, 0, 1⟩), (⟨0, 1, 0⟩, ⟨0, 0, 2⟩)]).computeAverageRigidTransform.num_transforms_ = 1) := by
  have h2 : 2 ≤ (entryOfTransforms
      [((⟨1, 0, 0⟩ : Vec3), (⟨0, 0, 1⟩ : Vec3)), (⟨0, 1, 0⟩, ⟨0, 0, 2⟩)]).num_transforms_ := by
    rw [entryOfTransforms_eq]
    norm_num
  exact ⟨h2, (C3_average_idempotent _).1, (C3_average_idempotent _).2 h2⟩

/-- C9 counterexample: a grouped hypothesis emitted by
Cell::computeAverageRigidTransformInEntries carries the match confidence -1
the Hypothesis constructor assigned, which is not in the interval (0, 1]. -/
theorem C9_counterexample :
    ¬ (∀ h ∈ (Cell.computeAverageRigidTransformInEntries
          [(0, Entry.fresh.addRigidTransform ⟨1, 0, 0⟩ ⟨0, 0, 0⟩)] [] 0).2.1,
        0 < h.match_confidence_ ∧ h.match_confidence_ ≤ 1) := by
  intro hall
  have hmem : groupedHypothesis 0
      ((Entry.fresh.addRigidTransform ⟨1, 0, 0⟩ ⟨0, 0, 0⟩).computeAverageRigidTransform) ∈
      (Cell.computeAverageRigidTransformInEntries
        [(0, Entry.fresh.addRigidTransform ⟨1, 0, 0⟩ ⟨0, 0, 0⟩)] [] 0).2.1 := by
    simp [Cell.computeAverageRigidTransformInEntries]
  have hconf := (hall _ hmem).1
  norm_num [groupedHypothesis] at hconf

/-- C9 amended: every Hypothesis is created with match confidence -1 (a
sentinel meaning not yet scored), so every grouped hypothesis emitted by
Cell::computeAverageRigidTransformInEntries carries match confidence -1; a
confidence in (0, 1] is only established later by the hypothesis scorer. -/
theorem C9_amended_grouped_confidence (c : Cell) (h : Hypothesis)
    (hmem : h ∈ (Cell.computeAverageRigidTransformInEntries c [] 0).2.1) :
    h.match_confidence_ = -1 := by
  simp only [Cell.computeAverageRigidTransformInEntries, List.nil_append,
    List.mem_map] at hmem
  obtain ⟨p, -, rfl⟩ := hmem
  rfl

/-- Witness for the amended C9 at a concrete one-entry cell. -/
theorem C9_amended_grouped_confidence_witness :
    (groupedHypothesis 0
        ((Entry.fresh.addRigidTransform ⟨1, 0, 0⟩ ⟨0, 0, 0⟩).computeAverageRigidTransform) ∈
      (Cell.computeAverageRigidTransformInEntries
        [(0, Entry.fresh.addRigidTransform ⟨1, 0, 0⟩ ⟨0, 0, 0⟩)] [] 0).2.1) ∧
    (groupedHypothesis 0
        ((Entry.fresh.addRigidTransform ⟨1, 0, 0⟩ ⟨0, 0, 0⟩).computeAverageRigidTransform)).match_confidence_ = -1 := by
  have hmem : groupedHypothesis 0
      ((Entry.fresh.addRigidTransform ⟨1, 0, 0⟩ ⟨0, 0, 0⟩).computeAverageRigidTransform) ∈
      (Cell.computeAverageRigidTransformInEntries
        [(0, Entry.fresh.addRigidTransform ⟨1, 0, 0⟩ ⟨0, 0, 0⟩)] [] 0).2.1 := by
    simp [Cell.computeAverageRigidTransformInEntries]
  exact ⟨hmem, C9_amended_grouped_confidence _ _ hmem⟩

/-- C8: for distinct points, every component of the signature computed by
compute_oriented_point_pair_signature lies in [0, pi], and each clamped dot
product handed to the arccosine lies in [-1, 1] even for non-unit
normals. -/
theorem C8_signature_components_in_range (p1 n1 p2 n2 : Vec3) (_hne : p1 ≠ p2) :
    (0 ≤ (compute_oriented_point_pair_signature p1 n1 p2 n2).1 ∧
      (compute_oriented_point_pair_signature p1 n1 p2 n2).1 ≤ Real.pi) ∧
    (0 ≤ (compute_oriented_point_pair_signature p1 n1 p2 n2).2.1 ∧
      (compute_oriented_point_pair_signature p1 n1 p2 n2).2.1 ≤ Real.pi) ∧
    (0 ≤ (compute_oriented_point_pair_signature p1 n1 p2 n2).2.2 ∧
      (compute_oriented_point_pair_signature p1 n1 p2 n2).2.2 ≤ Real.pi) ∧
    (∀ t : ℝ, -1 ≤ aux.clamp t (-1) 1 ∧ aux.clamp t (-1) 1 ≤ 1) := by
  refine ⟨⟨Real.arccos_nonneg _, Real.arccos_le_pi _⟩,
          ⟨Real.arccos_nonneg _, Real.arccos_le_pi _⟩,
          ⟨Real.arccos_nonneg _, Real.arccos_le_pi _⟩,
          fun t => clamp_mem t (-1) 1 (by norm_num)⟩

/-- Witness for C8 at the concrete pair of the spec. -/
theorem C8_signature_components_in_range_witness :
    ((⟨0, 0, 0⟩ : Vec3) ≠ ⟨1, 0, 0⟩) ∧
    ((0 ≤ (compute_oriented_point_pair_signature ⟨0, 0, 0⟩ ⟨0, 0, 1⟩ ⟨1, 0, 0⟩ ⟨0, 0, 1⟩).1 ∧
      (compute_oriented_point_pair_signature ⟨0, 0, 0⟩ ⟨0, 0, 1⟩ ⟨1, 0, 0⟩ ⟨0, 0, 1⟩).1 ≤ Real.pi) ∧
     (0 ≤ (compute_oriented_point_pair_signature ⟨0, 0, 0⟩ ⟨0, 0, 1⟩ ⟨1, 0, 0⟩ ⟨0, 0, 1⟩).2.1 ∧
      (compute_oriented_point_pair_signature ⟨0, 0, 0⟩ ⟨0, 0, 1⟩ ⟨1, 0, 0⟩ ⟨0, 0, 1⟩).2.1 ≤ Real.pi) ∧
     (0 ≤ (compute_oriented_point_pair_signature ⟨0, 0, 0⟩ ⟨0, 0, 1⟩ ⟨1, 0, 0⟩ ⟨0, 0, 1⟩).2.2 ∧
      (compute_oriented_point_pair_signature ⟨0, 0, 0⟩ ⟨0, 0, 1⟩ ⟨1, 0, 0⟩ ⟨0, 0, 1⟩).2.2 ≤ Real.pi) ∧
     (∀ t : ℝ, -1 ≤ aux.clamp t (-1) 1 ∧ aux.clamp t (-1) 1 ≤ 1)) := by
  have hne : (⟨0, 0, 0⟩ : Vec3) ≠ ⟨1, 0, 0⟩ := by
    intro hc
    have hx := congrArg Vec3.x hc
    norm_num at hx
  exact ⟨hne, C8_signature_components_in_range _ _ _ _ hne⟩

/-- C6: for distinct points the signature is exactly the triple of
arccosines of the clamped dot products of n1 with the unit chord p2 - p1, of
n2 with the unit reversed chord p1 - p2, and of n1 with n2; at the literal
pair p1 = (0,0,0), n1 = (0,0,1), p2 = (1,0,0), n2 = (0,0,1) it evaluates to
(pi/2, pi/2, 0). -/
theorem C6_signature_formula :
    (∀ p1 n1 p2 n2 : Vec3, p1 ≠ p2 →
      compute_oriented_point_pair_signature p1 n1 p2 n2 =
        (Real.arccos (aux.clamp (aux.dot3 n1 (aux.normalize3 (aux.diff3 p2 p1))) (-1) 1),
         Real.arccos (aux.clamp (aux.dot3 n2 (aux.normalize3 (aux.diff3 p1 p2))) (-1) 1),
         Real.arccos (aux.clamp (aux.dot3 n1 n2) (-1) 1))) ∧
    compute_oriented_point_pair_signature ⟨0, 0, 0⟩ ⟨0, 0, 1⟩ ⟨1, 0, 0⟩ ⟨0, 0, 1⟩ =
      (Real.pi / 2, Real.pi / 2, 0) := by
  constructor
  · intro p1 n1 p2 n2 _
    simp only [compute_oriented_point_pair_signature, aux.diff3, Prod.mk.injEq,
      eq_self_iff_true, true_and, and_true]
    refine ?_
    have hd : (⟨p1.x - p2.x, p1.y - p2.y, p1.z - p2.z⟩ : Vec3) =
        ⟨-(p2.x - p1.x), -(p2.y - p1.y), -(p2.z - p1.z)⟩ := by
      simp only [Vec3.mk.injEq]
      refine ⟨by ring, by ring, by ring⟩
    rw [hd, normalize3_neg (p2.x - p1.x) (p2.y - p1.y) (p2.z - p1.z)]
  · have hmk : (⟨(⟨1, 0, 0⟩ : Vec3).x - (⟨0, 0, 0⟩ : Vec3).x,
        (⟨1, 0, 0⟩ : Vec3).y - (⟨0, 0, 0⟩ : Vec3).y,
        (⟨1, 0, 0⟩ : Vec3).z - (⟨0, 0, 0⟩ : Vec3).z⟩ : Vec3) = ⟨1, 0, 0⟩ := by
      norm_num
    have hn : aux.normalize3 (⟨1, 0, 0⟩ : Vec3) = ⟨1, 0, 0⟩ :=
      normalize3_unit _ (by norm_num [aux.dot3])
    simp only [compute_oriented_point_pair_signature, hmk, hn]
    norm_num [aux.dot3, aux.clamp, Real.arccos_zero, Real.arccos_one, Prod.mk.injEq]

/-- Witness for the quantified part of C6 at the literal pair of the
spec. -/
theorem C6_signature_formula_witness :
    ((⟨0, 0, 0⟩ : Vec3) ≠ ⟨2, 0, 0⟩) ∧
    compute_oriented_point_pair_signature ⟨0, 0, 0⟩ ⟨0, 1, 0⟩ ⟨2, 0, 0⟩ ⟨0, 1, 1⟩ =
      (Real.arccos (aux.clamp (aux.dot3 ⟨0, 1, 0⟩
          (aux.normalize3 (aux.diff3 ⟨2, 0, 0⟩ ⟨0, 0, 0⟩))) (-1) 1),
       Real.arccos (aux.clamp (aux.dot3 ⟨0, 1, 1⟩
          (aux.normalize3 (aux.diff3 ⟨0, 0, 0⟩ ⟨2, 0, 0⟩))) (-1) 1),
       Real.arccos (aux.clamp (aux.dot3 ⟨0, 1, 0⟩ (⟨0, 1, 1⟩ : Vec3)) (-1) 1)) := by
  have hne : (⟨0, 0, 0⟩ : Vec3) ≠ ⟨2, 0, 0⟩ := by
    intro hc
    have hx := congrArg Vec3.x hc
    norm_num at hx
  exact ⟨hne, C6_signature_formula.1 _ _ _ _ hne⟩

/-- C4: building each entry of a cell from a nonempty insertion sequence and
then running Cell::computeAverageRigidTransformInEntries emits exactly one
hypothesis per model of the cell, whose rotation is the matrix form of the
arithmetic mean of the inserted axis-angles and whose translation is the
arithmetic mean of the inserted translations. -/
theorem C4_grouped_hypotheses_carry_means (cell : List (Model × List (Vec3 × Vec3)))
    (hne : ∀ p ∈ cell, p.2 ≠ ([] : List (Vec3 × Vec3))) :
    (Cell.computeAverageRigidTransformInEntries
        (cell.map (fun p => (p.1, entryOfTransforms p.2))) [] 0).2.1 =
      cell.map (fun p =>
        groupedHypothesis p.1
          ⟨aux.mult3 (vsum (p.2.map Prod.fst)) (1 / (p.2.length : ℝ)),
           aux.mult3 (vsum (p.2.map Prod.snd)) (1 / (p.2.length : ℝ)), 1⟩) ∧
    (Cell.computeAverageRigidTransformInEntries
        (cell.map (fun p => (p.1, entryOfTransforms p.2))) [] 0).2.1.length =
      cell.length := by
  have hout : (Cell.computeAverageRigidTransformInEntries
      (cell.map (fun p => (p.1, entryOfTransforms p.2))) [] 0).2.1 =
      cell.map (fun p =>
        groupedHypothesis p.1 (entryOfTransforms p.2).computeAverageRigidTransform) := by
    simp only [Cell.computeAverageRigidTransformInEntries, List.nil_append, List.map_map]
    rfl
  constructor
  · rw [hout]
    refine List.map_congr_left (fun p hp => ?_)
    rw [entryOfTransforms_avg p.2 (hne p hp)]
  · rw [hout, List.length_map]

/-- Witness for C4 at a concrete one-model cell with two insertions. -/
theorem C4_grouped_hypotheses_carry_means_witness :
    (∀ p ∈ [((0 : Model), [((⟨1, 0, 0⟩ : Vec3), (⟨0, 0, 0⟩ : Vec3)), (⟨3, 0, 0⟩, ⟨2, 2, 2⟩)])],
      p.2 ≠ ([] : List (Vec3 × Vec3))) ∧
    ((Cell.computeAverageRigidTransformInEntries
        ([((0 : Model), [((⟨1, 0, 0⟩ : Vec3), (⟨0, 0, 0⟩ : Vec3)), (⟨3, 0, 0⟩, ⟨2, 2, 2⟩)])].map
          (fun p => (p.1, entryOfTransforms p.2))) [] 0).2.1 =
      [((0 : Model), [((⟨1, 0, 0⟩ : Vec3), (⟨0, 0, 0⟩ : Vec3)), (⟨3, 0, 0⟩, ⟨2, 2, 2⟩)])].map
        (fun p =>
          groupedHypothesis p.1
            ⟨aux.mult3 (vsum (p.2.map Prod.fst)) (1 / (p.2.length : ℝ)),
             aux.mult3 (vsum (p.2.map Prod.snd)) (1 / (p.2.length : ℝ)), 1⟩) ∧
     (Cell.computeAverageRigidTransformInEntries
        ([((0 : Model), [((⟨1, 0, 0⟩ : Vec3), (⟨0, 0, 0⟩ : Vec3)), (⟨3, 0, 0⟩, ⟨2, 2, 2⟩)])].map
          (fun p => (p.1, entryOfTransforms p.2))) [] 0).2.1.length = 1) := by
  have hne : ∀ p ∈ [((0 : Model), [((⟨1, 0, 0⟩ : Vec3), (⟨0, 0, 0⟩ : Vec3)), (⟨3, 0, 0⟩, ⟨2, 2, 2⟩)])],
      p.2 ≠ ([] : List (Vec3 × Vec3)) := by
    intro p hp
    simp only [List.mem_singleton] at hp
    subst hp
    simp
  exact ⟨hne, (C4_grouped_hypotheses_carry_means _ hne).1,
         (C4_grouped_hypotheses_carry_means _ hne).2⟩

/-- C7 counterexample: at the pair a = (0,0,0), b = (1,0,0) with normals
a_n = (3/5, 4/5, 0) and b_n = (0,0,1), every normalization involved is
defined (the computed axes are the explicit nonzero vectors below), yet the
y-axis computed by computeRigidTransform, which normalizes each projected
normal before summing, differs from the normalized plain sum of the two
projected normals that the claim describes. -/
theorem C7_counterexample :
    pairFrameX ⟨0, 0, 0⟩ ⟨1, 0, 0⟩ = ⟨1, 0, 0⟩ ∧
    pairFrameY ⟨0, 0, 0⟩ ⟨3/5, 4/5, 0⟩ ⟨1, 0, 0⟩ ⟨0, 0, 1⟩ =
      ⟨0, 1 / Real.sqrt 2, 1 / Real.sqrt 2⟩ ∧
    pairFrameYSpec ⟨0, 0, 0⟩ ⟨3/5, 4/5, 0⟩ ⟨1, 0, 0⟩ ⟨0, 0, 1⟩ =
      aux.mult3 ⟨0, 4/5, 1⟩ (1 / (Real.sqrt 41 / 5)) ∧
    pairFrameY ⟨0, 0, 0⟩ ⟨3/5, 4/5, 0⟩ ⟨1, 0, 0⟩ ⟨0, 0, 1⟩ ≠
      pairFrameYSpec ⟨0, 0, 0⟩ ⟨3/5, 4/5, 0⟩ ⟨1, 0, 0⟩ ⟨0, 0, 1⟩ := by
  have hdiff : aux.diff3 (⟨1, 0, 0⟩ : Vec3) ⟨0, 0, 0⟩ = ⟨1, 0, 0⟩ := by
    norm_num [aux.diff3]
  have hX : pairFrameX ⟨0, 0, 0⟩ ⟨1, 0, 0⟩ = ⟨1, 0, 0⟩ := by
    show aux.normalize3 (aux.diff3 ⟨1, 0, 0⟩ ⟨0, 0, 0⟩) = ⟨1, 0, 0⟩
    rw [hdiff]
    exact normalize3_unit _ (by norm_num [aux.dot3])
  have hproj1 : aux.projectOnPlane3 ⟨3/5, 4/5, 0⟩ (⟨1, 0, 0⟩ : Vec3) = ⟨0, 4/5, 0⟩ := by
    norm_num [aux.projectOnPlane3, aux.dot3]
  have hproj2 : aux.projectOnPlane3 ⟨0, 0, 1⟩ (⟨1, 0, 0⟩ : Vec3) = ⟨0, 0, 1⟩ := by
    norm_num [aux.projectOnPlane3, aux.dot3]
  have hn1 : aux.normalize3 (⟨0, 4/5, 0⟩ : Vec3) = ⟨0, 1, 0⟩ := by
    rw [normalize3_dot_sq _ (4/5) (by norm_num) (by norm_num [aux.dot3])]
    norm_num [aux.mult3]
  have hn2 : aux.normalize3 (⟨0, 0, 1⟩ : Vec3) = ⟨0, 0, 1⟩ :=
    normalize3_unit _ (by norm_num [aux.dot3])
  have hsqrt2 : (0:ℝ) < Real.sqrt 2 := Real.sqrt_pos.mpr (by norm_num)
  have hsqrt41 : (0:ℝ) < Real.sqrt 41 := Real.sqrt_pos.mpr (by norm_num)
  have hY : pairFrameY ⟨0, 0, 0⟩ ⟨3/5, 4/5, 0⟩ ⟨1, 0, 0⟩ ⟨0, 0, 1⟩ =
      ⟨0, 1 / Real.sqrt 2, 1 / Real.sqrt 2⟩ := by
    show aux.normalize3
        (aux.sum3 (aux.normalize3 (aux.projectOnPlane3 ⟨3/5, 4/5, 0⟩ (pairFrameX ⟨0, 0, 0⟩ ⟨1, 0, 0⟩)))
                  (aux.normalize3 (aux.projectOnPlane3 ⟨0, 0, 1⟩ (pairFrameX ⟨0, 0, 0⟩ ⟨1, 0, 0⟩)))) =
      ⟨0, 1 / Real.sqrt 2, 1 / Real.sqrt 2⟩
    rw [hX, hproj1, hproj2, hn1, hn2]
    have hsum : aux.sum3 (⟨0, 1, 0⟩ : Vec3) ⟨0, 0, 1⟩ = ⟨0, 1, 1⟩ := by
      norm_num [aux.sum3]
    rw [hsum, normalize3_dot_sq _ (Real.sqrt 2) (le_of_lt hsqrt2)
      (by rw [Real.sq_sqrt (by norm_num : (0:ℝ) ≤ 2)]; norm_num [aux.dot3])]
    norm_num [aux.mult3]
  have hYspec : pairFrameYSpec ⟨0, 0, 0⟩ ⟨3/5, 4/5, 0⟩ ⟨1, 0, 0⟩ ⟨0, 0, 1⟩ =
      aux.mult3 ⟨0, 4/5, 1⟩ (1 / (Real.sqrt 41 / 5)) := by
    show aux.normalize3
        (aux.sum3 (aux.projectOnPlane3 ⟨3/5, 4/5, 0⟩ (pairFrameX ⟨0, 0, 0⟩ ⟨1, 0, 0⟩))
                  (aux.projectOnPlane3 ⟨0, 0, 1⟩ (pairFrameX ⟨0, 0, 0⟩ ⟨1, 0, 0⟩))) =
      aux.mult3 ⟨0, 4/5, 1⟩ (1 / (Real.sqrt 41 / 5))
    rw [hX, hproj1, hproj2]
    have hsum : aux.sum3 (⟨0, 4/5, 0⟩ : Vec3) ⟨0, 0, 1⟩ = ⟨0, 4/5, 1⟩ := by
      norm_num [aux.sum3]
    rw [hsum, normalize3_dot_sq _ (Real.sqrt 41 / 5) (by positivity)]
    rw [div_pow, Real.sq_sqrt (by norm_num : (0:ℝ) ≤ 41)]
    norm_num [aux.dot3]
  refine ⟨hX, hY, hYspec, ?_⟩
  rw [hY, hYspec]
  intro hc
  have hy := congrArg Vec3.y hc
  simp only [aux.mult3] at hy
  have hy2 : (1 / Real.sqrt 2) ^ 2 = (4 / 5 * (1 / (Real.sqrt 41 / 5))) ^ 2 := by
    rw [hy]
  rw [div_pow, one_pow, Real.sq_sqrt (by norm_num : (0:ℝ) ≤ 2)] at hy2
  rw [mul_pow, div_pow, div_pow, one_pow, div_pow,
    Real.sq_sqrt (by norm_num : (0:ℝ) ≤ 41)] at hy2
  norm_num at hy2

/-- C7 amended: the y-axis of each frame built by computeRigidTransform is
the unit sum of the unit-normalized projections of the two normals onto the
plane orthogonal to the x-axis (each projection is normalized before the two
are summed), and the rotation and translation of computeRigidTransform are
assembled from exactly these frames. -/
theorem C7_amended_y_axis (a1 a1_n b1 b1_n a2 a2_n b2 b2_n : Vec3) :
    pairFrameY a1 a1_n b1 b1_n =
      aux.normalize3
        (aux.sum3 (aux.normalize3 (aux.projectOnPlane3 a1_n (pairFrameX a1 b1)))
                  (aux.normalize3 (aux.projectOnPlane3 b1_n (pairFrameX a1 b1)))) ∧
    computeRigidTransform a1 a1_n b1 b1_n a2 a2_n b2 b2_n =
      ⟨aux.mult3x3 (pairFrameX a2 b2) (pairFrameY a2 a2_n b2 b2_n)
          (pairFrameZ a2 a2_n b2 b2_n)
          ⟨pairFrameX a1 b1, pairFrameY a1 a1_n b1 b1_n, pairFrameZ a1 a1_n b1 b1_n⟩,
       aux.diff3 (pairOrigin a2 b2)
         (aux.mult3x3v
           (aux.mult3x3 (pairFrameX a2 b2) (pairFrameY a2 a2_n b2 b2_n)
             (pairFrameZ a2 a2_n b2 b2_n)
             ⟨pairFrameX a1 b1, pairFrameY a1 a1_n b1 b1_n, pairFrameZ a1 a1_n b1 b1_n⟩)
           (pairOrigin a1 b1))⟩ :=
  ⟨rfl, rfl⟩

/-- C5: RotationSpace::addRigidTransform either succeeds, returning true and
adding the transform to exactly the entry of the given model in the voxel
owning the axis-angle point (that entry gains the transform and its count
grows by one, every other (voxel, model) entry is untouched), or the
axis-angle lies outside the bounded rotation-space grid, in which case it
returns false and the whole rotation space is left unchanged. -/
theorem C5_rotation_space_add_atomic (rs : RotationSpace) (m : Model) (v t : Vec3) :
    (¬ inRotationBounds v → rs.addRigidTransform m v t = (false, rs)) ∧
    (inRotationBounds v →
      (rs.addRigidTransform m v t).1 = true ∧
      (rs.addRigidTransform m v t).2.entryAt (rotLeafId v) m =
        (rs.entryAt (rotLeafId v) m).addRigidTransform v t ∧
      ((rs.addRigidTransform m v t).2.entryAt (rotLeafId v) m).num_transforms_ =
        (rs.entryAt (rotLeafId v) m).num_transforms_ + 1 ∧
      (∀ leaf' m', (leaf', m') ≠ (rotLeafId v, m) →
        (rs.addRigidTransform m v t).2.entryAt leaf' m' = rs.entryAt leaf' m')) := by
  constructor
  · intro h
    simp [RotationSpace.addRigidTransform, createLeaf, h]
  · intro h
    have hsome : createLeaf v = some (rotLeafId v) := by simp [createLeaf, h]
    have hres : rs.addRigidTransform m v t =
        (true, ⟨updateCells rs.full_cells_ (rotLeafId v) m v t⟩) := by
      simp [RotationSpace.addRigidTransform, hsome]
    have hsame : (RotationSpace.mk
        (updateCells rs.full_cells_ (rotLeafId v) m v t)).entryAt (rotLeafId v) m =
        (rs.entryAt (rotLeafId v) m).addRigidTransform v t := by
      show (lookupCell (updateCells rs.full_cells_ (rotLeafId v) m v t)
        (rotLeafId v)).entryOf m = _
      rw [lookupCell_update_same, entryOf_add_same]
      rfl
    refine ⟨by rw [hres], ?_, ?_, ?_⟩
    · rw [hres]
      exact hsame
    · rw [hres]
      rw [hsame]
      rfl
    · intro leaf' m' hne
      rw [hres]
      show (lookupCell (updateCells rs.full_cells_ (rotLeafId v) m v t) leaf').entryOf m' = _
      by_cases hleaf : leaf' = rotLeafId v
      · subst hleaf
        have hm : m' ≠ m := by
          intro hc
          subst hc
          exact hne rfl
        rw [lookupCell_update_same, entryOf_add_other _ _ _ _ _ hm]
        rfl
      · rw [lookupCell_update_other _ _ _ _ _ _ hleaf]
        rfl

/-- Witness for C5: both branches at concrete inputs, the in-bounds point
(0,0,0) and the out-of-bounds point (7,0,0). -/
theorem C5_rotation_space_add_atomic_witness :
    (inRotationBounds ⟨0, 0, 0⟩ ∧
      ((RotationSpace.mk []).addRigidTransform 0 ⟨0, 0, 0⟩ ⟨1, 2, 3⟩).1 = true ∧
      ((RotationSpace.mk []).addRigidTransform 0 ⟨0, 0, 0⟩ ⟨1, 2, 3⟩).2.entryAt
          (rotLeafId ⟨0, 0, 0⟩) 0 =
        ((RotationSpace.mk []).entryAt
          (rotLeafId ⟨0, 0, 0⟩) 0).addRigidTransform ⟨0, 0, 0⟩ ⟨1, 2, 3⟩) ∧
    (¬ inRotationBounds ⟨7, 0, 0⟩ ∧
      (RotationSpace.mk []).addRigidTransform 0 ⟨7, 0, 0⟩ ⟨1, 2, 3⟩ =
        (false, RotationSpace.mk [])) := by
  have hpi : (0:ℝ) < Real.pi := Real.pi_pos
  have h9 : (0:ℝ) < 0.000000001 := by norm_num
  have hin : inRotationBounds ⟨0, 0, 0⟩ := by
    refine ⟨?_, ?_, ?_, ?_, ?_, ?_⟩ <;>
      simp only [rotSpaceMin, rotSpaceMax, AUX_PI_FLOAT] <;> linarith
  have hout : ¬ inRotationBounds ⟨7, 0, 0⟩ := by
    intro hc
    have h2 := hc.2.1
    have hlt : Real.pi < 3.15 := Real.pi_lt_d2
    simp only [rotSpaceMax, AUX_PI_FLOAT] at h2
    have h7 : (7:ℝ) ≤ Real.pi + 0.000000001 := h2
    nlinarith
  exact ⟨⟨hin, ((C5_rotation_space_add_atomic _ 0 _ ⟨1, 2, 3⟩).2 hin).1,
          ((C5_rotation_space_add_atomic _ 0 _ ⟨1, 2, 3⟩).2 hin).2.1⟩,
         ⟨hout, (C5_rotation_space_add_atomic _ 0 _ ⟨1, 2, 3⟩).1 hout⟩⟩

/-- C2 counterexample: at success probability 7/16 and relative object size
1 the ratio ln(1 - P) / ln(1 - p) equals exactly 2, the code returns
trunc(2 + 1) = 3, but the ceiling formula of the claim gives 2. -/
theorem C2_counterexample :
    computeNumberOfIterations (7/16) 1 ≠ iterationsSpec (7/16) 1 := by
  have hlog_ne : Real.log ((3:ℝ)/4) ≠ 0 := by
    intro hc
    rcases Real.log_eq_zero.mp hc with h | h | h <;> norm_num at h
  have hL : Real.log ((1:ℝ) - 7/16) = 2 * Real.log (3/4) := by
    rw [show ((1:ℝ) - 7/16) = (3/4)^2 by norm_num, Real.log_pow]
    norm_num
  have hrat : Real.log ((1:ℝ) - 7/16) / Real.log (1 - 0.25 * 1) = 2 := by
    rw [show ((1:ℝ) - 0.25 * 1) = 3/4 by norm_num, hL, mul_div_assoc,
      div_self hlog_ne, mul_one]
  have hcode : computeNumberOfIterations (7/16) 1 = 3 := by
    simp only [computeNumberOfIterations]
    rw [if_neg (by norm_num : ¬((1:ℝ) - 0.25 * 1 ≤ 0))]
    rw [show Real.log ((1:ℝ) - 7/16) / Real.log (1 - 0.25 * 1) + 1 = 3 by
      rw [hrat]; norm_num]
    rw [cIntOfReal_of_nonneg _ (by norm_num)]
    norm_num
  have hspec : iterationsSpec (7/16) 1 = 2 := by
    simp only [iterationsSpec]
    rw [if_neg (by norm_num : ¬((1:ℝ) ≤ 0.25 * 1))]
    rw [hrat]
    norm_num
  rw [hcode, hspec]
  norm_num

/-- C2 amended: computeNumberOfIterations returns 1 when p = 0.25 * r
satisfies p ≥ 1, and otherwise returns the int conversion of the ratio
ln(1-P)/ln(1-p) plus one, i.e. floor(ratio) + 1 whenever the ratio is
nonnegative; this coincides with ceil(ratio) exactly when the ratio is not
an integer (on an integer ratio the code returns one more than the
ceiling). -/
theorem C2_amended_iterations (P r : ℝ) :
    (1 ≤ 0.25 * r → computeNumberOfIterations P r = 1) ∧
    (0.25 * r < 1 → 0 ≤ Real.log (1 - P) / Real.log (1 - 0.25 * r) →
      computeNumberOfIterations P r =
        ⌊Real.log (1 - P) / Real.log (1 - 0.25 * r)⌋ + 1) ∧
    (0.25 * r < 1 → 0 ≤ Real.log (1 - P) / Real.log (1 - 0.25 * r) →
      Real.log (1 - P) / Real.log (1 - 0.25 * r) ≠
        ((⌊Real.log (1 - P) / Real.log (1 - 0.25 * r)⌋ : ℤ) : ℝ) →
      computeNumberOfIterations P r =
        ⌈Real.log (1 - P) / Real.log (1 - 0.25 * r)⌉) := by
  have hfloor : 0.25 * r < 1 → 0 ≤ Real.log (1 - P) / Real.log (1 - 0.25 * r) →
      computeNumberOfIterations P r =
        ⌊Real.log (1 - P) / Real.log (1 - 0.25 * r)⌋ + 1 := by
    intro hp hr
    simp only [computeNumberOfIterations]
    rw [if_neg (by linarith : ¬((1:ℝ) - 0.25 * r ≤ 0))]
    rw [cIntOfReal_of_nonneg _ (by linarith)]
    exact Int.floor_add_one _
  refine ⟨?_, hfloor, ?_⟩
  · intro hp
    simp only [computeNumberOfIterations]
    rw [if_pos (by linarith : (1:ℝ) - 0.25 * r ≤ 0)]
  · intro hp hr hne
    rw [hfloor hp hr, ceil_eq_floor_add_one_of_ne _ hne]

/-- Witness for C2 amended: the degenerate branch at r = 5, and the
non-integer-ratio branch at P = 31/32, r = 3, where the ratio is exactly
5/2. -/
theorem C2_amended_iterations_witness :
    ((1:ℝ) ≤ 0.25 * 5 ∧ computeNumberOfIterations (1/2) 5 = 1) ∧
    ((0.25 * (3:ℝ) < 1 ∧
      0 ≤ Real.log (1 - 31/32) / Real.log (1 - 0.25 * 3) ∧
      Real.log ((1:ℝ) - 31/32) / Real.log (1 - 0.25 * 3) ≠
        ((⌊Real.log ((1:ℝ) - 31/32) / Real.log (1 - 0.25 * 3)⌋ : ℤ) : ℝ)) ∧
     computeNumberOfIterations (31/32) 3 =
       ⌈Real.log ((1:ℝ) - 31/32) / Real.log (1 - 0.25 * 3)⌉) := by
  have hlog_ne : Real.log ((1:ℝ)/2) ≠ 0 := by
    intro hc
    rcases Real.log_eq_zero.mp hc with h | h | h <;> norm_num at h
  have hL1 : Real.log ((1:ℝ) - 31/32) = 5 * Real.log (1/2) := by
    rw [show ((1:ℝ) - 31/32) = (1/2)^5 by norm_num, Real.log_pow]
    norm_num
  have hL2 : Real.log ((1:ℝ) - 0.25 * 3) = 2 * Real.log (1/2) := by
    rw [show ((1:ℝ) - 0.25 * 3) = (1/2)^2 by norm_num, Real.log_pow]
    norm_num
  have hrat : Real.log ((1:ℝ) - 31/32) / Real.log (1 - 0.25 * 3) = 5/2 := by
    rw [hL1, hL2, mul_comm (5:ℝ) _, mul_comm (2:ℝ) _,
      mul_div_mul_left _ _ hlog_ne]
  have h1 : (0.25 * (3:ℝ) < 1) := by norm_num
  have h2 : 0 ≤ Real.log ((1:ℝ) - 31/32) / Real.log (1 - 0.25 * 3) := by
    rw [hrat]
    norm_num
  have h3 : Real.log ((1:ℝ) - 31/32) / Real.log (1 - 0.25 * 3) ≠
      ((⌊Real.log ((1:ℝ) - 31/32) / Real.log (1 - 0.25 * 3)⌋ : ℤ) : ℝ) := by
    rw [hrat]
    rw [show ⌊(5/2 : ℝ)⌋ = 2 by rw [Int.floor_eq_iff]; norm_num]
    norm_num
  have hdeg : (1:ℝ) ≤ 0.25 * 5 := by norm_num
  exact ⟨⟨hdeg, (C2_amended_iterations (1/2) 5).1 hdeg⟩,
         ⟨⟨h1, h2, h3⟩, (C2_amended_iterations (31/32) 3).2.2 h1 h2 h3⟩⟩

/-- C1: whenever the two frames computeRigidTransform constructs are
orthonormal, the rotation block it writes maps the axes of the first frame
to the corresponding axes of the second frame, and the full transform maps
the midpoint of the first pair to the midpoint of the second pair (here
exactly, since floats are modelled as reals). -/
theorem C1_rigid_transform_maps_frames (a1 a1_n b1 b1_n a2 a2_n b2 b2_n : Vec3)
    (h1 : orthonormalFrame (pairFrameX a1 b1) (pairFrameY a1 a1_n b1 b1_n)
      (pairFrameZ a1 a1_n b1 b1_n))
    (_h2 : orthonormalFrame (pairFrameX a2 b2) (pairFrameY a2 a2_n b2 b2_n)
      (pairFrameZ a2 a2_n b2 b2_n)) :
    aux.mult3x3v (computeRigidTransform a1 a1_n b1 b1_n a2 a2_n b2 b2_n).rot
        (pairFrameX a1 b1) = pairFrameX a2 b2 ∧
    aux.mult3x3v (computeRigidTransform a1 a1_n b1 b1_n a2 a2_n b2 b2_n).rot
        (pairFrameY a1 a1_n b1 b1_n) = pairFrameY a2 a2_n b2 b2_n ∧
    aux.mult3x3v (computeRigidTransform a1 a1_n b1 b1_n a2 a2_n b2 b2_n).rot
        (pairFrameZ a1 a1_n b1 b1_n) = pairFrameZ a2 a2_n b2 b2_n ∧
    aux.sum3 (aux.mult3x3v (computeRigidTransform a1 a1_n b1 b1_n a2 a2_n b2 b2_n).rot
        (pairOrigin a1 b1))
      (computeRigidTransform a1 a1_n b1 b1_n a2 a2_n b2 b2_n).trans =
      pairOrigin a2 b2 := by
  obtain ⟨hxx, hyy, hzz, hxy, hxz, hyz⟩ := h1
  have hyx : aux.dot3 (pairFrameY a1 a1_n b1 b1_n) (pairFrameX a1 b1) = 0 := by
    rw [dot3_comm]
    exact hxy
  have hzx : aux.dot3 (pairFrameZ a1 a1_n b1 b1_n) (pairFrameX a1 b1) = 0 := by
    rw [dot3_comm]
    exact hxz
  have hzy : aux.dot3 (pairFrameZ a1 a1_n b1 b1_n) (pairFrameY a1 a1_n b1 b1_n) = 0 := by
    rw [dot3_comm]
    exact hyz
  have hrot : (computeRigidTransform a1 a1_n b1 b1_n a2 a2_n b2 b2_n).rot =
      aux.mult3x3 (pairFrameX a2 b2) (pairFrameY a2 a2_n b2 b2_n)
        (pairFrameZ a2 a2_n b2 b2_n)
        ⟨pairFrameX a1 b1, pairFrameY a1 a1_n b1 b1_n, pairFrameZ a1 a1_n b1 b1_n⟩ := rfl
  refine ⟨?_, ?_, ?_, ?_⟩
  · rw [hrot, mult3x3v_mult3x3, hxx, hyx, hzx]
    refine Vec3.ext ?_ ?_ ?_ <;> simp [aux.add3, aux.mult3]
  · rw [hrot, mult3x3v_mult3x3, hxy, hyy, hzy]
    refine Vec3.ext ?_ ?_ ?_ <;> simp [aux.add3, aux.mult3]
  · rw [hrot, mult3x3v_mult3x3, hxz, hyz, hzz]
    refine Vec3.ext ?_ ?_ ?_ <;> simp [aux.add3, aux.mult3]
  · have htrans : (computeRigidTransform a1 a1_n b1 b1_n a2 a2_n b2 b2_n).trans =
        ⟨(pairOrigin a2 b2).x - (aux.mult3x3v
            ((computeRigidTransform a1 a1_n b1 b1_n a2 a2_n b2 b2_n).rot)
            (pairOrigin a1 b1)).x,
         (pairOrigin a2 b2).y - (aux.mult3x3v
            ((computeRigidTransform a1 a1_n b1 b1_n a2 a2_n b2 b2_n).rot)
            (pairOrigin a1 b1)).y,
         (pairOrigin a2 b2).z - (aux.mult3x3v
            ((computeRigidTransform a1 a1_n b1 b1_n a2 a2_n b2 b2_n).rot)
            (pairOrigin a1 b1)).z⟩ := rfl
    rw [htrans]
    refine Vec3.ext ?_ ?_ ?_ <;> simp [aux.sum3]

/-- Witness for C1 at the concrete pairs a1 = (0,0,0), b1 = (1,0,0) and
a2 = (5,0,0), b2 = (6,0,0), all four normals (0,0,1); both constructed
frames are ((1,0,0), (0,0,1), (0,-1,0)). -/
theorem C1_rigid_transform_maps_frames_witness :
    (orthonormalFrame (pairFrameX ⟨0, 0, 0⟩ ⟨1, 0, 0⟩)
        (pairFrameY ⟨0, 0, 0⟩ ⟨0, 0, 1⟩ ⟨1, 0, 0⟩ ⟨0, 0, 1⟩)
        (pairFrameZ ⟨0, 0, 0⟩ ⟨0, 0, 1⟩ ⟨1, 0, 0⟩ ⟨0, 0, 1⟩) ∧
     orthonormalFrame (pairFrameX ⟨5, 0, 0⟩ ⟨6, 0, 0⟩)
        (pairFrameY ⟨5, 0, 0⟩ ⟨0, 0, 1⟩ ⟨6, 0, 0⟩ ⟨0, 0, 1⟩)
        (pairFrameZ ⟨5, 0, 0⟩ ⟨0, 0, 1⟩ ⟨6, 0, 0⟩ ⟨0, 0, 1⟩)) ∧
    (aux.mult3x3v (computeRigidTransform ⟨0, 0, 0⟩ ⟨0, 0, 1⟩ ⟨1, 0, 0⟩ ⟨0, 0, 1⟩
          ⟨5, 0, 0⟩ ⟨0, 0, 1⟩ ⟨6, 0, 0⟩ ⟨0, 0, 1⟩).rot
        (pairFrameX ⟨0, 0, 0⟩ ⟨1, 0, 0⟩) = pairFrameX ⟨5, 0, 0⟩ ⟨6, 0, 0⟩ ∧
     aux.mult3x3v (computeRigidTransform ⟨0, 0, 0⟩ ⟨0, 0, 1⟩ ⟨1, 0, 0⟩ ⟨0, 0, 1⟩
          ⟨5, 0, 0⟩ ⟨0, 0, 1⟩ ⟨6, 0, 0⟩ ⟨0, 0, 1⟩).rot
        (pairFrameY ⟨0, 0, 0⟩ ⟨0, 0, 1⟩ ⟨1, 0, 0⟩ ⟨0, 0, 1⟩) =
       pairFrameY ⟨5, 0, 0⟩ ⟨0, 0, 1⟩ ⟨6, 0, 0⟩ ⟨0, 0, 1⟩ ∧
     aux.mult3x3v (computeRigidTransform ⟨0, 0, 0⟩ ⟨0, 0, 1⟩ ⟨1, 0, 0⟩ ⟨0, 0, 1⟩
          ⟨5, 0, 0⟩ ⟨0, 0, 1⟩ ⟨6, 0, 0⟩ ⟨0, 0, 1⟩).rot
        (pairFrameZ ⟨0, 0, 0⟩ ⟨0, 0, 1⟩ ⟨1, 0, 0⟩ ⟨0, 0, 1⟩) =
       pairFrameZ ⟨5, 0, 0⟩ ⟨0, 0, 1⟩ ⟨6, 0, 0⟩ ⟨0, 0, 1⟩ ∧
     aux.sum3 (aux.mult3x3v (computeRigidTransform ⟨0, 0, 0⟩ ⟨0, 0, 1⟩ ⟨1, 0, 0⟩ ⟨0, 0, 1⟩
          ⟨5, 0, 0⟩ ⟨0, 0, 1⟩ ⟨6, 0, 0⟩ ⟨0, 0, 1⟩).rot
        (pairOrigin ⟨0, 0, 0⟩ ⟨1, 0, 0⟩))
      (computeRigidTransform ⟨0, 0, 0⟩ ⟨0, 0, 1⟩ ⟨1, 0, 0⟩ ⟨0, 0, 1⟩
          ⟨5, 0, 0⟩ ⟨0, 0, 1⟩ ⟨6, 0, 0⟩ ⟨0, 0, 1⟩).trans =
       pairOrigin ⟨5, 0, 0⟩ ⟨6, 0, 0⟩) := by
  have hproj : aux.projectOnPlane3 ⟨0, 0, 1⟩ (⟨1, 0, 0⟩ : Vec3) = ⟨0, 0, 1⟩ := by
    norm_num [aux.projectOnPlane3, aux.dot3]
  have hnunit : aux.normalize3 (⟨0, 0, 1⟩ : Vec3) = ⟨0, 0, 1⟩ :=
    normalize3_unit _ (by norm_num [aux.dot3])
  have hsum : aux.sum3 (⟨0, 0, 1⟩ : Vec3) ⟨0, 0, 1⟩ = ⟨0, 0, 2⟩ := by
    norm_num [aux.sum3]
  have hn2 : aux.normalize3 (⟨0, 0, 2⟩ : Vec3) = ⟨0, 0, 1⟩ := by
    rw [normalize3_dot_sq _ 2 (by norm_num) (by norm_num [aux.dot3])]
    norm_num [aux.mult3]
  have hX1 : pairFrameX ⟨0, 0, 0⟩ ⟨1, 0, 0⟩ = ⟨1, 0, 0⟩ := by
    show aux.normalize3 (aux.diff3 ⟨1, 0, 0⟩ ⟨0, 0, 0⟩) = ⟨1, 0, 0⟩
    rw [show aux.diff3 (⟨1, 0, 0⟩ : Vec3) ⟨0, 0, 0⟩ = ⟨1, 0, 0⟩ by norm_num [aux.diff3]]
    exact normalize3_unit _ (by norm_num [aux.dot3])
  have hX2 : pairFrameX ⟨5, 0, 0⟩ ⟨6, 0, 0⟩ = ⟨1, 0, 0⟩ := by
    show aux.normalize3 (aux.diff3 ⟨6, 0, 0⟩ ⟨5, 0, 0⟩) = ⟨1, 0, 0⟩
    rw [show aux.diff3 (⟨6, 0, 0⟩ : Vec3) ⟨5, 0, 0⟩ = ⟨1, 0, 0⟩ by norm_num [aux.diff3]]
    exact normalize3_unit _ (by norm_num [aux.dot3])
  have hY1 : pairFrameY ⟨0, 0, 0⟩ ⟨0, 0, 1⟩ ⟨1, 0, 0⟩ ⟨0, 0, 1⟩ = ⟨0, 0, 1⟩ := by
    show aux.normalize3
        (aux.sum3
          (aux.normalize3 (aux.projectOnPlane3 ⟨0, 0, 1⟩ (pairFrameX ⟨0, 0, 0⟩ ⟨1, 0, 0⟩)))
          (aux.normalize3 (aux.projectOnPlane3 ⟨0, 0, 1⟩ (pairFrameX ⟨0, 0, 0⟩ ⟨1, 0, 0⟩)))) =
      ⟨0, 0, 1⟩
    rw [hX1, hproj, hnunit, hsum, hn2]
  have hY2 : pairFrameY ⟨5, 0, 0⟩ ⟨0, 0, 1⟩ ⟨6, 0, 0⟩ ⟨0, 0, 1⟩ = ⟨0, 0, 1⟩ := by
    show aux.normalize3
        (aux.sum3
          (aux.normalize3 (aux.projectOnPlane3 ⟨0, 0, 1⟩ (pairFrameX ⟨5, 0, 0⟩ ⟨6, 0, 0⟩)))
          (aux.normalize3 (aux.projectOnPlane3 ⟨0, 0, 1⟩ (pairFrameX ⟨5, 0, 0⟩ ⟨6, 0, 0⟩)))) =
      ⟨0, 0, 1⟩
    rw [hX2, hproj, hnunit, hsum, hn2]
  have hZ1 : pairFrameZ ⟨0, 0, 0⟩ ⟨0, 0, 1⟩ ⟨1, 0, 0⟩ ⟨0, 0, 1⟩ = ⟨0, -1, 0⟩ := by
    show aux.cross3 (pairFrameX ⟨0, 0, 0⟩ ⟨1, 0, 0⟩)
        (pairFrameY ⟨0, 0, 0⟩ ⟨0, 0, 1⟩ ⟨1, 0, 0⟩ ⟨0, 0, 1⟩) = ⟨0, -1, 0⟩
    rw [hX1, hY1]
    norm_num [aux.cross3]
  have hZ2 : pairFrameZ ⟨5, 0, 0⟩ ⟨0, 0, 1⟩ ⟨6, 0, 0⟩ ⟨0, 0, 1⟩ = ⟨0, -1, 0⟩ := by
    show aux.cross3 (pairFrameX ⟨5, 0, 0⟩ ⟨6, 0, 0⟩)
        (pairFrameY ⟨5, 0, 0⟩ ⟨0, 0, 1⟩ ⟨6, 0, 0⟩ ⟨0, 0, 1⟩) = ⟨0, -1, 0⟩
    rw [hX2, hY2]
    norm_num [aux.cross3]
  have hON : orthonormalFrame ⟨1, 0, 0⟩ ⟨0, 0, 1⟩ ⟨0, -1, 0⟩ := by
    refine ⟨?_, ?_, ?_, ?_, ?_, ?_⟩ <;> norm_num [aux.dot3]
  have h1 : orthonormalFrame (pairFrameX ⟨0, 0, 0⟩ ⟨1, 0, 0⟩)
      (pairFrameY ⟨0, 0, 0⟩ ⟨0, 0, 1⟩ ⟨1, 0, 0⟩ ⟨0, 0, 1⟩)
      (pairFrameZ ⟨0, 0, 0⟩ ⟨0, 0, 1⟩ ⟨1, 0, 0⟩ ⟨0, 0, 1⟩) := by
    rw [hX1, hY1, hZ1]
    exact hON
  have h2 : orthonormalFrame (pairFrameX ⟨5, 0, 0⟩ ⟨6, 0, 0⟩)
      (pairFrameY ⟨5, 0, 0⟩ ⟨0, 0, 1⟩ ⟨6, 0, 0⟩ ⟨0, 0, 1⟩)
      (pairFrameZ ⟨5, 0, 0⟩ ⟨0, 0, 1⟩ ⟨6, 0, 0⟩ ⟨0, 0, 1⟩) := by
    rw [hX2, hY2, hZ2]
    exact hON
  exact ⟨⟨h1, h2⟩, C1_rigid_transform_maps_frames _ _ _ _ _ _ _ _ h1 h2⟩

end ObjRecRANSAC
